import Mathlib

/-!
Verification development for the bitrix-mcp tool layer.

The Python source is shallowly embedded: JSON values are the inductive
`JValue` (numbers are modelled as integers; floats do not occur in the
properties under study), Python dicts are insertion-ordered association
lists, `json.loads` and the remote transport (`call` / `get_all` of the
underlying API client) are abstract function parameters, and every tool
operation returns the envelope dictionary it would serialize with
`json.dumps`, paired with the trace of transport calls it performed.
Exceptions are modelled with `Except String`, carrying the exception's
message string.
-/

/-- A JSON value as produced by `json.loads` / consumed by `json.dumps`.
Numbers are modelled as integers. -/
inductive JValue where
  | null : JValue
  | bool : Bool → JValue
  | int : Int → JValue
  | str : String → JValue
  | arr : List JValue → JValue
  | obj : List (String × JValue) → JValue

/-- Python truthiness (`bool(x)`) on JSON values: `None`, `False`, `0`,
`""`, `[]` and an empty dict are falsy, everything else is truthy. -/
def JValue.truthy : JValue → Bool
  | .null => false
  | .bool b => b
  | .int n => n != 0
  | .str s => s != ""
  | .arr xs => !xs.isEmpty
  | .obj kvs => !kvs.isEmpty

mutual

/-- Python `repr` of a JSON value (`None`, `True`, `-3`, quoted strings,
`[...]` lists, dicts). Used because `str(list)` renders elements with
`repr`. -/
def pyRepr : JValue → String
  | .null => "None"
  | .bool true => "True"
  | .bool false => "False"
  | .int n => toString n
  | .str s => "\x27" ++ s ++ "\x27"
  | .arr xs => "[" ++ pyReprList xs ++ "]"
  | .obj kvs => "\x7b" ++ pyReprObj kvs ++ "\x7d"

/-- Comma-joined `repr`s of the elements of a Python list. -/
def pyReprList : List JValue → String
  | [] => ""
  | [v] => pyRepr v
  | v :: w :: rest => pyRepr v ++ ", " ++ pyReprList (w :: rest)

/-- Comma-joined `repr`s of the items of a Python dict. -/
def pyReprObj : List (String × JValue) → String
  | [] => ""
  | [(k, v)] => "\x27" ++ k ++ "\x27: " ++ pyRepr v
  | (k, v) :: p :: rest => "\x27" ++ k ++ "\x27: " ++ pyRepr v ++ ", " ++ pyReprObj (p :: rest)

end

/-- Python `str(x)`: identity on strings, `repr` on everything else. -/
def pyStr (v : JValue) : String :=
  match v with
  | .str s => s
  | w => pyRepr w

/-- `key in d` for a Python dict modelled as an association list. -/
def hasKey (kvs : List (String × JValue)) (k : String) : Bool :=
  kvs.any (fun p => p.1 == k)

/-- `d[key]` lookup (dict keys are unique in values coming from
`json.loads`, so first match is the value). -/
def lookupKey (kvs : List (String × JValue)) (k : String) : Option JValue :=
  match kvs.find? (fun p => p.1 == k) with
  | some p => some p.2
  | none => none

/-- `d[key] = v` on an insertion-ordered dict: replace in place when the
key is present, append otherwise. -/
def setKey (kvs : List (String × JValue)) (k : String) (v : JValue) : List (String × JValue) :=
  if hasKey kvs k then kvs.map (fun p => if p.1 == k then (k, v) else p)
  else kvs ++ [(k, v)]

/-- `d.pop(key)`'s effect on the dict: drop the entry with that key. -/
def popKey (kvs : List (String × JValue)) (k : String) : List (String × JValue) :=
  kvs.filter (fun p => p.1 != k)

/-- `x[0]` on a JSON value: head of a list, first character of a string,
`KeyError` on a dict keyed by strings, `TypeError` otherwise. -/
def index0 : JValue → Except String JValue
  | .arr (x :: _) => .ok x
  | .arr [] => .error "IndexError: list index out of range"
  | .str s =>
    match s.data with
    | [] => .error "IndexError: string index out of range"
    | c :: _ => .ok (.str (String.mk [c]))
  | .obj _ => .error "KeyError: 0"
  | _ => .error "TypeError: object is not subscriptable"

/-- `x[0] = y` on a list value (only ever applied after `index0`
succeeded on a non-empty list). -/
def setIndex0 (v x : JValue) : JValue :=
  match v with
  | .arr (_ :: t) => .arr (x :: t)
  | w => w

/-- Python whitespace as stripped by `str.strip()` (ASCII portion). -/
def isPySpace (c : Char) : Bool :=
  c = ' ' || c = '\t' || c = '\n' || c = '\r' || c = '\x0b' || c = '\x0c'

/-- `s.strip()`: drop leading and trailing whitespace characters. -/
def pyStrip (s : String) : String :=
  String.mk (((s.data.dropWhile isPySpace).reverse.dropWhile isPySpace).reverse)

/-- Splitting a character list at every comma, accumulating the current
token in reverse. -/
def splitCommaAux : List Char → List Char → List String
  | [], acc => [String.mk acc.reverse]
  | c :: rest, acc =>
    if c = ',' then String.mk acc.reverse :: splitCommaAux rest []
    else splitCommaAux rest (c :: acc)

/-- `s.split(",")`: split at every comma; the empty string yields `[""]`,
adjacent commas yield empty tokens. -/
def pySplitComma (s : String) : List String :=
  splitCommaAux s.data []

/-- `item.isdigit()`: non-empty and all characters decimal digits. -/
def pyIsDigit (s : String) : Bool :=
  !s.data.isEmpty && s.data.all Char.isDigit

/-- Value of an all-digits decimal string (`int(item)` on a string for
which `item.isdigit()` holds). -/
def digitsToNat (s : String) : Nat :=
  s.data.foldl (fun n c => n * 10 + (c.toNat - 48)) 0

/-- Best-effort `int(x)` coercion: integers pass through, booleans map to
0/1, strings are parsed as optionally signed decimals after stripping
whitespace; anything else (and unparsable strings) yields `none`,
standing for the `TypeError`/`ValueError` branch. -/
def pyToInt (v : JValue) : Option Int :=
  match v with
  | .int n => some n
  | .bool b => some (if b then 1 else 0)
  | .str s =>
    let t := pyStrip s
    if pyIsDigit t then some ((digitsToNat t : Nat) : Int)
    else
      match t.data with
      | '-' :: rest =>
        if !rest.isEmpty && rest.all Char.isDigit then
          some (-((digitsToNat (String.mk rest) : Nat) : Int))
        else none
      | '+' :: rest =>
        if !rest.isEmpty && rest.all Char.isDigit then
          some ((digitsToNat (String.mk rest) : Nat) : Int)
        else none
      | _ => none
  | _ => none

/-- One recorded invocation of the transport client. -/
structure CallRec where
  method : String
  params : JValue

/-- The failure envelope every operation builds in its exception handler:
`json.dumps({"success": False, "error": str(e)})`. -/
def mkFail (e : String) : JValue :=
  .obj [("success", .bool false), ("error", .str e)]

/-- An operation result is an envelope when it is a dict whose
`"success"` entry is a boolean. -/
def isEnvelopeB (v : JValue) : Bool :=
  match v with
  | .obj kvs =>
    match lookupKey kvs "success" with
    | some (.bool _) => true
    | _ => false
  | _ => false

/-- `json.loads(raw) if raw else None`: absent or empty input gives
Python `None` (here `Option.none`), otherwise the abstract `json.loads`
(parameter `J`) runs and may raise. -/
def parseOptJson (J : String → Except String JValue) (raw : Option String) :
    Except String (Option JValue) :=
  match raw with
  | none => .ok none
  | some s =>
    if s = "" then .ok none
    else
      match J s with
      | .ok v => .ok (some v)
      | .error e => .error e

/-- `json.loads(raw) if raw else {}`: like `parseOptJson` but defaulting
to an empty dict. -/
def parseJsonDefaultObj (J : String → Except String JValue) (raw : Option String) :
    Except String JValue :=
  match raw with
  | none => .ok (.obj [])
  | some s => if s = "" then .ok (.obj []) else J s

/-- `json.loads(raw) if raw else {}` where the continuation performs dict
operations on the result. A parse producing a non-object makes every
later dict operation of the operation body raise a type error that the
same enclosing handler catches; that unreachable-for-our-claims branch is
collapsed into an immediate error here. -/
def parseFilterObj (J : String → Except String JValue) (raw : Option String) :
    Except String (List (String × JValue)) :=
  match raw with
  | none => .ok []
  | some s =>
    if s = "" then .ok []
    else
      match J s with
      | .error e => .error e
      | .ok (.obj kvs) => .ok kvs
      | .ok _ => .error "TypeError: filter_params is not an object"

/-- `select_fields.split(",") if select_fields else None` — the
field-selection handling of the lead and task listing tools: a plain
comma split, no trimming, no dropping of empty tokens. -/
def splitFields (raw : Option String) : Option (List String) :=
  match raw with
  | none => none
  | some s => if s = "" then none else some (pySplitComma s)

/-- `parse_field_list` as the specification document words it: split on
commas, trim each token, drop empty tokens, no deduplication, `None` on
empty/absent input. Stated for comparison with `splitFields`, the
behaviour of the source. -/
def parse_field_list_spec (raw : Option String) : Option (List String) :=
  match raw with
  | none => none
  | some s =>
    if s = "" then none
    else some (((pySplitComma s).map pyStrip).filter (fun t => t ≠ ""))

/-- The runtime type check the `@beartype` decorator performs on a
`Optional[dict[str, Any]]` parameter of the client layer: `None` and
dicts pass, anything else raises before the client body runs. -/
def beartypeOptDict (v : Option JValue) : Except String Unit :=
  match v with
  | none => .ok ()
  | some (.obj _) => .ok ()
  | some _ => .error "beartype violation: parameter not an instance of dict"

/-- `_normalize_sections` of `CalendarTools.get_events`: `None` to `[]`,
lists pass through, numeric scalars wrap into a one-element list
(Python's `bool` being an `int`, `int(True)` is 1), strings are first
tried as JSON and on a decode error are comma-split into trimmed
non-empty tokens, each all-digits token coerced to an integer; any other
type yields `[]`. -/
def normalize_sections (J : String → Except String JValue) : JValue → List JValue
  | .null => []
  | .arr xs => xs
  | .int n => [.int n]
  | .bool b => [.int (if b then 1 else 0)]
  | .str s =>
    match J s with
    | .ok (.arr xs) => xs
    | .ok v => [v]
    | .error _ =>
      let items := ((pySplitComma s).map pyStrip).filter (fun t => t ≠ "")
      items.map (fun item =>
        if pyIsDigit item then JValue.int ((digitsToNat item : Nat) : Int)
        else JValue.str item)
  | .obj _ => []

/-- The deduplication loop of `get_events`: walk the merged section list,
keeping the first occurrence of each `str(section)` key. -/
def dedupStrAux : List String → List JValue → List JValue
  | _, [] => []
  | seen, v :: vs =>
    if seen.contains (pyStr v) then dedupStrAux seen vs
    else v :: dedupStrAux (pyStr v :: seen) vs

/-- Order-preserving, first-seen-wins deduplication by `str` equality. -/
def dedupByStr (vals : List JValue) : List JValue :=
  dedupStrAux [] vals

namespace BitrixClient

/-- The parameter dictionary `BitrixClient.get_leads` builds for
`get_all("crm.lead.list", ...)`: always `start`, and `filter` / `select`
/ `order` only when the corresponding argument is truthy. -/
def get_leads_params (filter_params : Option JValue) (select_fields : Option (List String))
    (order : Option JValue) (start : Int) : List (String × JValue) :=
  let params : List (String × JValue) := [("start", .int start)]
  let params :=
    match filter_params with
    | some v => if v.truthy then setKey params "filter" v else params
    | none => params
  let params :=
    match select_fields with
    | some l => if l.isEmpty then params else setKey params "select" (.arr (l.map JValue.str))
    | none => params
  match order with
  | some v => if v.truthy then setKey params "order" v else params
  | none => params

/-- `BitrixClient.get_leads`: beartype-check the arguments, build the
parameter dict and fetch all pages through `get_all`. -/
def get_leads (gall : String → List (String × JValue) → Except String (List JValue))
    (filter_params : Option JValue) (select_fields : Option (List String))
    (order : Option JValue) (start : Int) :
    Except String (List JValue) × List CallRec :=
  match beartypeOptDict filter_params with
  | .error e => (.error e, [])
  | .ok _ =>
    let params := get_leads_params filter_params select_fields order start
    (gall "crm.lead.list" params, [⟨"crm.lead.list", .obj params⟩])

/-- `BitrixClient.get_lead`: `call("crm.lead.get", {"id": id})`, then
`result[0] if result else None` (Python `None` modelled as `JValue.null`). -/
def get_lead (tcall : String → JValue → Except String JValue) (lead_id : String) :
    Except String JValue × List CallRec :=
  let params : JValue := .obj [("id", .str lead_id)]
  match tcall "crm.lead.get" params with
  | .error e => (.error e, [⟨"crm.lead.get", params⟩])
  | .ok r =>
    ((if r.truthy then index0 r else .ok .null), [⟨"crm.lead.get", params⟩])

/-- `BitrixClient.get_calendar_event_by_id`:
`call("calendar.event.getbyid", {"id": id})`, then
`result[0] if result else None`. -/
def get_calendar_event_by_id (tcall : String → JValue → Except String JValue)
    (event_id : String) : Except String JValue × List CallRec :=
  let params : JValue := .obj [("id", .str event_id)]
  match tcall "calendar.event.getbyid" params with
  | .error e => (.error e, [⟨"calendar.event.getbyid", params⟩])
  | .ok r =>
    ((if r.truthy then index0 r else .ok .null), [⟨"calendar.event.getbyid", params⟩])

/-- `BitrixClient.set_meeting_status`:
`call("calendar.meeting.status.set", {"eventId": .., "status": ..})`,
then `bool(result[0]) if result else False`. -/
def set_meeting_status (tcall : String → JValue → Except String JValue)
    (event_id status : String) : Except String Bool × List CallRec :=
  let params : JValue := .obj [("eventId", .str event_id), ("status", .str status)]
  match tcall "calendar.meeting.status.set" params with
  | .error e => (.error e, [⟨"calendar.meeting.status.set", params⟩])
  | .ok r =>
    ((if r.truthy then (index0 r).map JValue.truthy else .ok false),
     [⟨"calendar.meeting.status.set", params⟩])

end BitrixClient

namespace LeadTools

/-- `LeadTools.get_leads`: parse the optional JSON filter and the
comma-separated field selection, fetch through the client layer, truncate
to `limit` when `limit > 0`, and wrap in the success envelope; every
raised exception becomes the failure envelope. -/
def get_leads (J : String → Except String JValue)
    (gall : String → List (String × JValue) → Except String (List JValue))
    (filter_params select_fields : Option String) (limit : Int) :
    JValue × List CallRec :=
  match parseOptJson J filter_params with
  | .error e => (mkFail e, [])
  | .ok filter_dict =>
    let select_list := splitFields select_fields
    match BitrixClient.get_leads gall filter_dict select_list none 0 with
    | (.error e, tr) => (mkFail e, tr)
    | (.ok leads, tr) =>
      let leads := if limit > 0 then leads.take limit.toNat else leads
      (.obj [("success", .bool true), ("count", .int leads.length), ("leads", .arr leads)], tr)

/-- `LeadTools.get_lead`: fetch one lead; a falsy fetched value yields the
not-found failure envelope naming the requested id. -/
def get_lead (tcall : String → JValue → Except String JValue) (lead_id : String) :
    JValue × List CallRec :=
  match BitrixClient.get_lead tcall lead_id with
  | (.error e, tr) => (mkFail e, tr)
  | (.ok lead, tr) =>
    if lead.truthy then (.obj [("success", .bool true), ("lead", lead)], tr)
    else (mkFail ("Lead with ID " ++ lead_id ++ " not found"), tr)

end LeadTools

namespace TaskTools

/-- `TaskTools.update_task`: parse the JSON field map, call
`tasks.task.update`, read `bool(result[0]) if result else False` and
report the mutation envelope; every raised exception becomes the failure
envelope. -/
def update_task (J : String → Except String JValue)
    (tcall : String → JValue → Except String JValue) (task_id fields : String) :
    JValue × List CallRec :=
  match J fields with
  | .error e => (mkFail e, [])
  | .ok fields_dict =>
    let params : JValue := .obj [("taskId", .str task_id), ("fields", fields_dict)]
    match tcall "tasks.task.update" params with
    | .error e => (mkFail e, [⟨"tasks.task.update", params⟩])
    | .ok r =>
      match (if r.truthy then (index0 r).map JValue.truthy else .ok false) with
      | .error e => (mkFail e, [⟨"tasks.task.update", params⟩])
      | .ok succ =>
        (.obj [("success", .bool succ), ("task_id", .str task_id),
               ("message", .str (if succ then "Task updated successfully"
                                 else "Failed to update task"))],
         [⟨"tasks.task.update", params⟩])

end TaskTools

namespace ProjectTools

/-- The parameter dictionary `ProjectTools.get_projects` builds: `FILTER`
only when the parsed filter dict is truthy. -/
def get_projects_params (filter_dict : JValue) : List (String × JValue) :=
  if filter_dict.truthy then [("FILTER", filter_dict)] else []

/-- `ProjectTools.get_projects`: parse the optional JSON filter, fetch all
pages of `sonet_group.get`, truncate to `limit` when positive and the
list is non-empty, and report `total`/`count` both equal to the length of
the returned list. -/
def get_projects (J : String → Except String JValue)
    (gall : String → List (String × JValue) → Except String (List JValue))
    (filter_params : Option String) (limit : Int) : JValue × List CallRec :=
  match parseJsonDefaultObj J filter_params with
  | .error e => (mkFail e, [])
  | .ok filter_dict =>
    let params := get_projects_params filter_dict
    match gall "sonet_group.get" params with
    | .error e => (mkFail e, [⟨"sonet_group.get", .obj params⟩])
    | .ok projects =>
      let projects := if limit > 0 && !projects.isEmpty then projects.take limit.toNat
                      else projects
      let total : Int := if projects.isEmpty then 0 else projects.length
      (.obj [("success", .bool true), ("total", .int total), ("count", .int total),
             ("projects", .arr projects)],
       [⟨"sonet_group.get", .obj params⟩])

end ProjectTools

namespace CalendarTools

/-- The section-merging step of `CalendarTools.get_events`: normalize the
`section` value found inside the filter (if any), then the separately
supplied `sections` argument (if truthy), concatenate in that order and,
when anything was collected, store the `str`-deduplicated list back under
`section`; when nothing was collected but the filter carried a `section`
key, drop that key. -/
def merge_sections (J : String → Except String JValue)
    (filter_dict : List (String × JValue)) (sections : Option String) :
    List (String × JValue) :=
  let from_filter :=
    if hasKey filter_dict "section" then
      normalize_sections J ((lookupKey filter_dict "section").getD .null)
    else []
  let from_arg :=
    match sections with
    | some s => if s = "" then [] else normalize_sections J (.str s)
    | none => []
  let section_values := from_filter ++ from_arg
  if !section_values.isEmpty then
    setKey filter_dict "section" (.arr (dedupByStr section_values))
  else if hasKey filter_dict "section" then popKey filter_dict "section"
  else filter_dict

/-- The date-window step of `get_events`: add `from` / `to` when the
corresponding argument is truthy. -/
def add_dates (filter_dict : List (String × JValue)) (date_from date_to : Option String) :
    List (String × JValue) :=
  let filter_dict :=
    match date_from with
    | some s => if s = "" then filter_dict else setKey filter_dict "from" (.str s)
    | none => filter_dict
  match date_to with
  | some s => if s = "" then filter_dict else setKey filter_dict "to" (.str s)
  | none => filter_dict

/-- The truncation statement of `get_events`:
`if limit > 0 and events and isinstance(events[0], list):
events[0] = events[0][:limit]` — evaluating `events[0]` may raise. -/
def events_limit (events : JValue) (limit : Int) : Except String JValue :=
  if limit > 0 && events.truthy then
    match index0 events with
    | .error e => .error e
    | .ok (.arr xs) => .ok (setIndex0 events (.arr (xs.take limit.toNat)))
    | .ok _ => .ok events
  else .ok events

/-- The count expression of `get_events`:
`len(events[0]) if events and isinstance(events[0], list) else 0`. -/
def events_count (ev : JValue) : Except String Int :=
  if ev.truthy then
    match index0 ev with
    | .error e => .error e
    | .ok (.arr xs) => .ok (xs.length : Int)
    | .ok _ => .ok 0
  else .ok 0

/-- The payload expression of `get_events`:
`events[0] if events else []`. -/
def events_payload (ev : JValue) : Except String JValue :=
  if ev.truthy then index0 ev else .ok (.arr [])

/-- `CalendarTools.get_events`: parse the filter, merge section sources,
add the date window, call `calendar.event.get`, truncate `events[0]` to
`limit` when it is a list, and report `count` as the length of
`events[0]` when that is a list (0 otherwise) with `events[0]` as the
payload; every raised exception becomes the failure envelope. -/
def get_events (J : String → Except String JValue)
    (tcall : String → JValue → Except String JValue)
    (filter_params date_from date_to : Option String) (limit : Int)
    (sections : Option String) : JValue × List CallRec :=
  match parseFilterObj J filter_params with
  | .error e => (mkFail e, [])
  | .ok fd0 =>
    let fd := add_dates (merge_sections J fd0 sections) date_from date_to
    let tr : List CallRec := [⟨"calendar.event.get", .obj fd⟩]
    match tcall "calendar.event.get" (.obj fd) with
    | .error e => (mkFail e, tr)
    | .ok events =>
      match events_limit events limit with
      | .error e => (mkFail e, tr)
      | .ok ev =>
        match events_count ev with
        | .error e => (mkFail e, tr)
        | .ok cnt =>
          match events_payload ev with
          | .error e => (mkFail e, tr)
          | .ok payload =>
            (.obj [("success", .bool true), ("count", .int cnt), ("events", payload)], tr)

/-- The alias-merging step of `get_calendar_list`:
`params[canonical] = params.pop(legacy)` guarded on the legacy key being
present and the canonical key absent. -/
def merge_alias (kvs : List (String × JValue)) (legacy canonical : String) :
    List (String × JValue) :=
  if hasKey kvs legacy && !hasKey kvs canonical then
    match lookupKey kvs legacy with
    | some v => setKey (popKey kvs legacy) canonical v
    | none => kvs
  else kvs

/-- Body of `get_calendar_list` after the parameters dict is obtained:
normalize the `TYPE` and `OWNER_ID`/`owner_id` aliases, default `type` to
`"user"`, best-effort coerce `ownerId` to an integer, call
`calendar.section.get` and unwrap `calendars[0] if calendars else []`. -/
def get_calendar_list_body (tcall : String → JValue → Except String JValue)
    (params0 : List (String × JValue)) : JValue × List CallRec :=
  let params := merge_alias params0 "TYPE" "type"
  let params :=
    if hasKey params "OWNER_ID" && !hasKey params "ownerId" then
      merge_alias params "OWNER_ID" "ownerId"
    else merge_alias params "owner_id" "ownerId"
  let params :=
    if hasKey params "type" then params else setKey params "type" (.str "user")
  let params :=
    match lookupKey params "ownerId" with
    | some v =>
      match pyToInt v with
      | some n => setKey params "ownerId" (.int n)
      | none => params
    | none => params
  let tr : List CallRec := [⟨"calendar.section.get", .obj params⟩]
  match tcall "calendar.section.get" (.obj params) with
  | .error e => (mkFail e, tr)
  | .ok cals =>
    match (if cals.truthy then index0 cals else .ok (.arr [])) with
    | .error e => (mkFail e, tr)
    | .ok payload => (.obj [("success", .bool true), ("calendars", payload)], tr)

/-- `CalendarTools.get_calendar_list`: parse the request parameters
(a decode error is caught as its own special case with message
`Invalid filter_params JSON: ...`) and run the body; a parse producing a
non-object is collapsed into an immediate error as in `parseFilterObj`. -/
def get_calendar_list (J : String → Except String JValue)
    (tcall : String → JValue → Except String JValue) (filter_params : Option String) :
    JValue × List CallRec :=
  match filter_params with
  | some s =>
    if s = "" then get_calendar_list_body tcall []
    else
      match J s with
      | .error e => (mkFail ("Invalid filter_params JSON: " ++ e), [])
      | .ok (.obj kvs) => get_calendar_list_body tcall kvs
      | .ok _ => (mkFail "TypeError: parameters are not an object", [])
  | none => get_calendar_list_body tcall []

/-- `CalendarTools.get_event_by_id`: fetch one event; a falsy fetched
value yields the not-found failure envelope naming the requested id. -/
def get_event_by_id (tcall : String → JValue → Except String JValue) (event_id : String) :
    JValue × List CallRec :=
  match BitrixClient.get_calendar_event_by_id tcall event_id with
  | (.error e, tr) => (mkFail e, tr)
  | (.ok event, tr) =>
    if event.truthy then (.obj [("success", .bool true), ("event", event)], tr)
    else (mkFail ("Event with ID " ++ event_id ++ " not found"), tr)

/-- `CalendarTools.set_meeting_status`: reject a status outside
`{"Y","N","Q"}` locally with a message citing the invalid value and the
allowed set, otherwise call the client layer and report the mutation
envelope. -/
def set_meeting_status (tcall : String → JValue → Except String JValue)
    (event_id status : String) : JValue × List CallRec :=
  if status = "Y" || status = "N" || status = "Q" then
    match BitrixClient.set_meeting_status tcall event_id status with
    | (.error e, tr) => (mkFail e, tr)
    | (.ok succ, tr) =>
      (.obj [("success", .bool succ), ("event_id", .str event_id), ("status", .str status),
             ("message", .str (if succ then "Meeting status updated successfully"
                               else "Failed to update meeting status"))], tr)
  else
    (mkFail ("Invalid status \x27" ++ status ++
             "\x27. Must be \x27Y\x27, \x27N\x27, or \x27Q\x27"), [])

end CalendarTools

theorem find?_map_set (t : List (String × JValue)) (k : String) (v : JValue)
    (h : hasKey t k = true) :
    List.find? (fun q => q.1 == k) (t.map (fun q => if q.1 == k then (k, v) else q)) =
      some (k, v) := by
  induction t with
  | nil => simp [hasKey] at h
  | cons p t ih =>
    by_cases hp : p.1 = k
    · have hb : (p.1 == k) = true := by simpa using hp
      simp only [List.map_cons, hb, if_true]
      exact List.find?_cons_of_pos _ (by simp)
    · have hb : (p.1 == k) = false := by simpa using hp
      have ht : hasKey t k = true := by
        simp only [hasKey, List.any_cons, hb, Bool.false_or] at h
        exact h
      simp only [List.map_cons, hb, Bool.false_eq_true, if_false]
      rw [List.find?_cons_of_neg _ (by simp [hb])]
      exact ih ht

theorem find?_append_one (t : List (String × JValue)) (k : String) (v : JValue)
    (h : hasKey t k = false) :
    List.find? (fun q => q.1 == k) (t ++ [(k, v)]) = some (k, v) := by
  induction t with
  | nil => simp [List.find?]
  | cons p t ih =>
    have hb : (p.1 == k) = false := by
      simp only [hasKey, List.any_cons, Bool.or_eq_false_iff] at h
      exact h.1
    have ht : hasKey t k = false := by
      simp only [hasKey, List.any_cons, Bool.or_eq_false_iff] at h
      exact h.2
    simp only [List.cons_append]
    rw [List.find?_cons_of_neg _ (by simp [hb])]
    exact ih ht

theorem lookupKey_setKey_self (kvs : List (String × JValue)) (k : String) (v : JValue) :
    lookupKey (setKey kvs k v) k = some v := by
  by_cases h : hasKey kvs k = true
  · rw [setKey, if_pos h]
    unfold lookupKey
    rw [find?_map_set kvs k v h]
  · rw [setKey, if_neg h]
    unfold lookupKey
    rw [find?_append_one kvs k v (by simpa using h)]

theorem find?_map_set_ne (t : List (String × JValue)) (k k2 : String) (v : JValue)
    (hne : k2 ≠ k) :
    List.find? (fun q => q.1 == k) (t.map (fun q => if q.1 == k2 then (k2, v) else q)) =
      List.find? (fun q => q.1 == k) t := by
  induction t with
  | nil => simp
  | cons p t ih =>
    by_cases hp2 : p.1 = k2
    · have h1 : (p.1 == k2) = true := by simpa using hp2
      have h3 : (p.1 == k) = false := by
        simp only [beq_eq_false_iff_ne, ne_eq]
        intro hc
        exact hne (by rw [← hp2]; exact hc)
      have h2 : (k2 == k) = false := by simpa using hne
      simp only [List.map_cons, h1, if_true]
      rw [List.find?_cons_of_neg _ (by simp [h2]), List.find?_cons_of_neg _ (by simp [h3])]
      exact ih
    · have h1 : (p.1 == k2) = false := by simpa using hp2
      simp only [List.map_cons, h1, Bool.false_eq_true, if_false]
      by_cases hpk : p.1 = k
      · have hb : (p.1 == k) = true := by simpa using hpk
        rw [List.find?_cons_of_pos (p := fun q : String × JValue => q.1 == k) _ hb,
          List.find?_cons_of_pos (p := fun q : String × JValue => q.1 == k) _ hb]
      · have hb : (p.1 == k) = false := by simpa using hpk
        rw [List.find?_cons_of_neg _ (by simp [hb]), List.find?_cons_of_neg _ (by simp [hb])]
        exact ih

theorem find?_append_one_ne (t : List (String × JValue)) (k k2 : String) (v : JValue)
    (hne : k2 ≠ k) :
    List.find? (fun q => q.1 == k) (t ++ [(k2, v)]) = List.find? (fun q => q.1 == k) t := by
  induction t with
  | nil => simp [List.find?, show (k2 == k) = false from by simpa using hne]
  | cons p t ih =>
    by_cases hpk : p.1 = k
    · have hb : (p.1 == k) = true := by simpa using hpk
      simp only [List.cons_append]
      rw [List.find?_cons_of_pos (p := fun q : String × JValue => q.1 == k) _ hb,
        List.find?_cons_of_pos (p := fun q : String × JValue => q.1 == k) _ hb]
    · have hb : (p.1 == k) = false := by simpa using hpk
      simp only [List.cons_append]
      rw [List.find?_cons_of_neg _ (by simp [hb]), List.find?_cons_of_neg _ (by simp [hb])]
      exact ih

theorem lookupKey_setKey_ne (kvs : List (String × JValue)) (k k2 : String) (v : JValue)
    (hne : k2 ≠ k) : lookupKey (setKey kvs k2 v) k = lookupKey kvs k := by
  by_cases h : hasKey kvs k2 = true
  · rw [setKey, if_pos h]
    unfold lookupKey
    rw [find?_map_set_ne kvs k k2 v hne]
  · rw [setKey, if_neg h]
    unfold lookupKey
    rw [find?_append_one_ne kvs k k2 v hne]

theorem hasKey_map_set (t : List (String × JValue)) (k k2 : String) (v : JValue)
    (hne : k2 ≠ k) :
    hasKey (t.map (fun q => if q.1 == k2 then (k2, v) else q)) k = hasKey t k := by
  induction t with
  | nil => rfl
  | cons p t ih =>
    by_cases hp2 : p.1 = k2
    · have h1 : (p.1 == k2) = true := by simpa using hp2
      have h2 : (k2 == k) = false := by simpa using hne
      have h3 : (p.1 == k) = false := by
        simp only [beq_eq_false_iff_ne, ne_eq]
        intro hc
        exact hne (by rw [← hp2]; exact hc)
      simp only [hasKey, List.map_cons, List.any_cons, h1, if_true, h2, h3] at ih ⊢
      exact ih
    · have h1 : (p.1 == k2) = false := by simpa using hp2
      simp only [hasKey, List.map_cons, List.any_cons, h1, Bool.false_eq_true, if_false] at ih ⊢
      rw [ih]

theorem hasKey_setKey_ne (kvs : List (String × JValue)) (k k2 : String) (v : JValue)
    (hne : k2 ≠ k) : hasKey (setKey kvs k2 v) k = hasKey kvs k := by
  by_cases h : hasKey kvs k2 = true
  · rw [setKey, if_pos h, hasKey_map_set kvs k k2 v hne]
  · rw [setKey, if_neg h]
    simp only [hasKey, List.any_append, List.any_cons, List.any_nil,
      show (k2 == k) = false from by simpa using hne, Bool.false_or, Bool.or_false]

theorem hasKey_popKey_self (kvs : List (String × JValue)) (k : String) :
    hasKey (popKey kvs k) k = false := by
  induction kvs with
  | nil => rfl
  | cons p t ih =>
    by_cases hp : p.1 = k
    · have hb : (p.1 != k) = false := by simp [hp]
      simp only [popKey, List.filter_cons, hb, Bool.false_eq_true, if_false]
      exact ih
    · have hb : (p.1 != k) = true := by simp [hp]
      have hbk : (p.1 == k) = false := by simpa using hp
      simp only [popKey, List.filter_cons, hb, if_true, hasKey, List.any_cons, hbk,
        Bool.false_or]
      exact ih

theorem hasKey_of_lookup (kvs : List (String × JValue)) (k : String) (v : JValue)
    (h : lookupKey kvs k = some v) : hasKey kvs k = true := by
  induction kvs with
  | nil => simp [lookupKey, List.find?] at h
  | cons p t ih =>
    by_cases hp : p.1 = k
    · simp [hasKey, List.any_cons, hp]
    · have hb : (p.1 == k) = false := by simpa using hp
      unfold lookupKey at h
      rw [List.find?_cons_of_neg _ (by simp [hb])] at h
      simp only [hasKey, List.any_cons, hb, Bool.false_or]
      exact ih (by unfold lookupKey; exact h)

/-- C8: for every status value outside `{"Y","N","Q"}` the meeting-status
setter performs zero transport calls and returns a failure envelope whose
error text cites the invalid value and the allowed set. -/
theorem C8_meeting_status_rejected_locally
    (tcall : String → JValue → Except String JValue) (event_id status : String)
    (hY : status ≠ "Y") (hN : status ≠ "N") (hQ : status ≠ "Q") :
    CalendarTools.set_meeting_status tcall event_id status =
      (mkFail ("Invalid status \x27" ++ status ++
               "\x27. Must be \x27Y\x27, \x27N\x27, or \x27Q\x27"), []) ∧
    ∃ pre post, ("Invalid status \x27" ++ status ++
        "\x27. Must be \x27Y\x27, \x27N\x27, or \x27Q\x27") = pre ++ status ++ post := by
  refine ⟨?_, "Invalid status \x27", "\x27. Must be \x27Y\x27, \x27N\x27, or \x27Q\x27", rfl⟩
  unfold CalendarTools.set_meeting_status
  simp [hY, hN, hQ]

/-- Witness for C8 at the concrete invalid status `"X"`. -/
theorem C8_meeting_status_rejected_locally_witness :
    CalendarTools.set_meeting_status (fun _ _ => .ok (.arr [.bool true])) "5" "X" =
      (mkFail ("Invalid status \x27" ++ "X" ++
               "\x27. Must be \x27Y\x27, \x27N\x27, or \x27Q\x27"), []) ∧
    ∃ pre post, ("Invalid status \x27" ++ "X" ++
        "\x27. Must be \x27Y\x27, \x27N\x27, or \x27Q\x27") = pre ++ "X" ++ post :=
  C8_meeting_status_rejected_locally (fun _ _ => .ok (.arr [.bool true])) "5" "X"
    (by decide) (by decide) (by decide)

/-- C5: a single-entity get whose transport fetch succeeds but yields a
falsy value returns the not-found failure envelope naming the requested
id verbatim. -/
theorem C5_not_found_envelope
    (tcall tcall2 : String → JValue → Except String JValue)
    (lead_id event_id : String) (v w : JValue)
    (h1 : (BitrixClient.get_lead tcall lead_id).1 = .ok v) (h2 : v.truthy = false)
    (h3 : (BitrixClient.get_calendar_event_by_id tcall2 event_id).1 = .ok w)
    (h4 : w.truthy = false) :
    (LeadTools.get_lead tcall lead_id).1 =
      mkFail ("Lead with ID " ++ lead_id ++ " not found") ∧
    (CalendarTools.get_event_by_id tcall2 event_id).1 =
      mkFail ("Event with ID " ++ event_id ++ " not found") := by
  constructor
  · have hE : BitrixClient.get_lead tcall lead_id =
        (.ok v, (BitrixClient.get_lead tcall lead_id).2) := by
      rcases hq : BitrixClient.get_lead tcall lead_id with ⟨res, tr⟩
      rw [hq] at h1
      simp only at h1
      rw [h1]
    unfold LeadTools.get_lead
    rw [hE]
    simp [h2]
  · have hE : BitrixClient.get_calendar_event_by_id tcall2 event_id =
        (.ok w, (BitrixClient.get_calendar_event_by_id tcall2 event_id).2) := by
      rcases hq : BitrixClient.get_calendar_event_by_id tcall2 event_id with ⟨res, tr⟩
      rw [hq] at h3
      simp only at h3
      rw [h3]
    unfold CalendarTools.get_event_by_id
    rw [hE]
    simp [h4]

/-- Witness for C5: a transport answering `[None]` makes the fetched
entity `None`, and the tools answer with the id-citing not-found
envelopes. -/
theorem C5_not_found_envelope_witness :
    (LeadTools.get_lead (fun _ _ => .ok (.arr [.null])) "77").1 =
      mkFail ("Lead with ID " ++ "77" ++ " not found") ∧
    (CalendarTools.get_event_by_id (fun _ _ => .ok (.arr [.null])) "8").1 =
      mkFail ("Event with ID " ++ "8" ++ " not found") :=
  C5_not_found_envelope (fun _ _ => .ok (.arr [.null])) (fun _ _ => .ok (.arr [.null]))
    "77" "8" .null .null rfl rfl rfl rfl


theorem splitCommaAux_ne_nil (cs acc : List Char) : splitCommaAux cs acc ≠ [] := by
  induction cs generalizing acc with
  | nil => simp [splitCommaAux]
  | cons c rest ih =>
    by_cases hc : c = ','
    · simp [splitCommaAux, hc]
    · simpa [splitCommaAux, hc] using ih (c :: acc)

theorem pySplitComma_ne_nil (s : String) : pySplitComma s ≠ [] :=
  splitCommaAux_ne_nil s.data []

/-- C2: a non-empty but invalid JSON filter string makes the operation
return a failure envelope with a non-empty error text while performing
zero transport calls (shown for the lead listing and the calendar list,
whose decode handler prefixes the message). -/
theorem C2_invalid_json_zero_transport_calls
    (J : String → Except String JValue)
    (gall : String → List (String × JValue) → Except String (List JValue))
    (tcall : String → JValue → Except String JValue)
    (s e : String) (select_fields : Option String) (limit : Int)
    (hs : s ≠ "") (hJ : J s = .error e) (he : e ≠ "") :
    LeadTools.get_leads J gall (some s) select_fields limit = (mkFail e, []) ∧
    e ≠ "" ∧
    CalendarTools.get_calendar_list J tcall (some s) =
      (mkFail ("Invalid filter_params JSON: " ++ e), []) ∧
    ("Invalid filter_params JSON: " ++ e) ≠ "" := by
  refine ⟨?_, he, ?_, ?_⟩
  · unfold LeadTools.get_leads parseOptJson
    simp [hs, hJ]
  · unfold CalendarTools.get_calendar_list
    simp [hs, hJ]
  · intro hcontra
    have hlen : ("Invalid filter_params JSON: " ++ e).length = 0 := by
      rw [hcontra]
      rfl
    rw [String.length_append] at hlen
    have h28 : ("Invalid filter_params JSON: ").length = 28 := by rfl
    omega

/-- Witness for C2 with a decoder failing on the concrete input
`"not json"`. -/
theorem C2_invalid_json_zero_transport_calls_witness :
    LeadTools.get_leads (fun _ => .error "Expecting value: line 1 column 1 (char 0)")
        (fun _ _ => .ok []) (some "not json") none 50 =
      (mkFail "Expecting value: line 1 column 1 (char 0)", []) ∧
    "Expecting value: line 1 column 1 (char 0)" ≠ "" ∧
    CalendarTools.get_calendar_list (fun _ => .error "Expecting value: line 1 column 1 (char 0)")
        (fun _ _ => .ok (.arr [])) (some "not json") =
      (mkFail ("Invalid filter_params JSON: " ++ "Expecting value: line 1 column 1 (char 0)"),
       []) ∧
    ("Invalid filter_params JSON: " ++ "Expecting value: line 1 column 1 (char 0)") ≠ "" :=
  C2_invalid_json_zero_transport_calls
    (fun _ => .error "Expecting value: line 1 column 1 (char 0)")
    (fun _ _ => .ok []) (fun _ _ => .ok (.arr []))
    "not json" "Expecting value: line 1 column 1 (char 0)" none 50
    (by decide) rfl (by decide)

/-- C9 counterexample: the field-selection string `"ID, TITLE"` splits to
`["ID", " TITLE"]` in the source — the second token keeps its leading
space — whereas the claimed trimmed parse yields `["ID", "TITLE"]`. -/
theorem C9_counterexample_no_trimming :
    splitFields (some "ID, TITLE") = some ["ID", " TITLE"] ∧
    parse_field_list_spec (some "ID, TITLE") = some ["ID", "TITLE"] ∧
    splitFields (some "ID, TITLE") ≠ parse_field_list_spec (some "ID, TITLE") :=
  ⟨by decide, by decide, by decide⟩

/-- C9 amended: the comma split is verbatim — no trimming, no dropping of
empty tokens, no deduplication — and the untrimmed tokens are what the
lead listing places under `select` in the outgoing parameters; empty or
absent input yields `None`. -/
theorem C9_amended_verbatim_split (s : String) (hs : s ≠ "") :
    splitFields none = none ∧
    splitFields (some "") = none ∧
    splitFields (some s) = some (pySplitComma s) ∧
    lookupKey (BitrixClient.get_leads_params none (splitFields (some s)) none 0) "select" =
      some (.arr ((pySplitComma s).map JValue.str)) := by
  refine ⟨rfl, rfl, by simp [splitFields, hs], ?_⟩
  unfold BitrixClient.get_leads_params splitFields
  simp only [hs, if_neg, if_false, List.isEmpty_eq_true, pySplitComma_ne_nil s]
  exact lookupKey_setKey_self _ _ _

/-- Witness for C9 amended at the concrete input `"ID, TITLE"`. -/
theorem C9_amended_verbatim_split_witness :
    splitFields none = none ∧
    splitFields (some "") = none ∧
    splitFields (some "ID, TITLE") = some (pySplitComma "ID, TITLE") ∧
    lookupKey (BitrixClient.get_leads_params none (splitFields (some "ID, TITLE")) none 0)
        "select" =
      some (.arr ((pySplitComma "ID, TITLE").map JValue.str)) :=
  C9_amended_verbatim_split "ID, TITLE" (by decide)

/-- C7: absent or empty (falsy) optional filter / field-selection / order
arguments leave the corresponding key out of the outgoing parameter
dictionary entirely, for the lead listing parameters and the project
listing parameters. -/
theorem C7_empty_optionals_produce_no_key
    (fp : Option JValue) (sf : Option (List String)) (ord : Option JValue) (start : Int)
    (fd : JValue)
    (hfp : fp = none ∨ ∃ v, fp = some v ∧ v.truthy = false)
    (hsf : sf = none ∨ sf = some [])
    (hord : ord = none ∨ ∃ v, ord = some v ∧ v.truthy = false)
    (hfd : fd.truthy = false) :
    hasKey (BitrixClient.get_leads_params fp sf ord start) "filter" = false ∧
    hasKey (BitrixClient.get_leads_params fp sf ord start) "select" = false ∧
    hasKey (BitrixClient.get_leads_params fp sf ord start) "order" = false ∧
    ProjectTools.get_projects_params fd = [] ∧
    hasKey (ProjectTools.get_projects_params fd) "FILTER" = false := by
  have hparams : BitrixClient.get_leads_params fp sf ord start = [("start", .int start)] := by
    unfold BitrixClient.get_leads_params
    rcases hfp with h | ⟨v, hv, hvf⟩ <;> rcases hsf with h2 | h2 <;>
      rcases hord with h3 | ⟨w, hw, hwf⟩ <;> simp_all
  have hpp : ProjectTools.get_projects_params fd = [] := by
    unfold ProjectTools.get_projects_params
    simp [hfd]
  refine ⟨?_, ?_, ?_, hpp, ?_⟩
  · rw [hparams]
    simp [hasKey]
  · rw [hparams]
    simp [hasKey]
  · rw [hparams]
    simp [hasKey]
  · rw [hpp]
    rfl

/-- Witness for C7 with every optional argument absent and an empty
filter dict on the project side. -/
theorem C7_empty_optionals_produce_no_key_witness :
    hasKey (BitrixClient.get_leads_params none none none 0) "filter" = false ∧
    hasKey (BitrixClient.get_leads_params none none none 0) "select" = false ∧
    hasKey (BitrixClient.get_leads_params none none none 0) "order" = false ∧
    ProjectTools.get_projects_params (.obj []) = [] ∧
    hasKey (ProjectTools.get_projects_params (.obj [])) "FILTER" = false :=
  C7_empty_optionals_produce_no_key none none none 0 (.obj [])
    (Or.inl rfl) (Or.inl rfl) (Or.inl rfl) rfl

/-- C3: with `limit <= 0` a list operation returns the full unmodified
result set and `count` equals its length; with `limit = N > 0` and more
than `N` underlying items it returns exactly the first `N` and
`count = N` (lead listing and project listing). -/
theorem C3_limit_zero_full_and_positive_truncates
    (J : String → Except String JValue)
    (gall : String → List (String × JValue) → Except String (List JValue))
    (fp sf pf : Option String) (rs : List JValue) (limit : Int)
    (fd : Option JValue) (pfd : JValue)
    (hfp : parseOptJson J fp = .ok fd)
    (hbt : beartypeOptDict fd = .ok ())
    (hppf : parseJsonDefaultObj J pf = .ok pfd)
    (hg : ∀ m p, gall m p = .ok rs) :
    (limit ≤ 0 →
      (LeadTools.get_leads J gall fp sf limit).1 =
        .obj [("success", .bool true), ("count", .int rs.length), ("leads", .arr rs)] ∧
      (ProjectTools.get_projects J gall pf limit).1 =
        .obj [("success", .bool true), ("total", .int rs.length),
              ("count", .int rs.length), ("projects", .arr rs)]) ∧
    (0 < limit → limit < (rs.length : Int) →
      (LeadTools.get_leads J gall fp sf limit).1 =
        .obj [("success", .bool true), ("count", .int limit),
              ("leads", .arr (rs.take limit.toNat))] ∧
      (ProjectTools.get_projects J gall pf limit).1 =
        .obj [("success", .bool true), ("total", .int limit), ("count", .int limit),
              ("projects", .arr (rs.take limit.toNat))]) := by
  have hleads : BitrixClient.get_leads gall fd (splitFields sf) none 0 =
      (.ok rs,
       [⟨"crm.lead.list", .obj (BitrixClient.get_leads_params fd (splitFields sf) none 0)⟩]) := by
    unfold BitrixClient.get_leads
    rw [hbt]
    dsimp only
    rw [hg]
  constructor
  · intro hle
    have hnot : ¬ (0 : Int) < limit := not_lt.mpr hle
    constructor
    · simp only [LeadTools.get_leads, hfp, hleads]
      rw [if_neg hnot]
    · simp only [ProjectTools.get_projects, hppf, hg]
      have hcond : (decide ((0 : Int) < limit) && !rs.isEmpty) = false := by
        simp [decide_eq_false hnot]
      rw [hcond]
      cases rs with
      | nil => simp
      | cons a t => simp
  · intro hpos hlt
    have hminle : limit.toNat ≤ rs.length := by omega
    constructor
    · simp only [LeadTools.get_leads, hfp, hleads]
      rw [if_pos hpos]
      simp only [List.length_take]
      rw [show ((min limit.toNat rs.length : Nat) : Int) = limit from by omega]
    · simp only [ProjectTools.get_projects, hppf, hg]
      have hne : rs.isEmpty = false := by
        cases rs with
        | nil => simp at hlt; omega
        | cons a t => rfl
      have hcond : (decide ((0 : Int) < limit) && !rs.isEmpty) = true := by
        simp [hne, decide_eq_true hpos]
      rw [hcond]
      have htne : (rs.take limit.toNat).isEmpty = false := by
        cases rs with
        | nil => simp at hlt; omega
        | cons a t =>
          have : limit.toNat ≠ 0 := by omega
          cases hmt : limit.toNat with
          | zero => exact absurd hmt this
          | succ m => simp [List.take]
      simp only [if_true, htne, Bool.false_eq_true, if_false, List.length_take]
      rw [show ((min limit.toNat rs.length : Nat) : Int) = limit from by omega]

/-- Witness for C3: a stub transport with three records, `limit = 2`
truncates to the first two, and the `limit <= 0` branch is exercised at
`limit = 0` through a separate application below. -/
theorem C3_limit_zero_full_and_positive_truncates_witness :
    ((0 : Int) ≤ 0 →
      (LeadTools.get_leads (fun _ => .error "x")
          (fun _ _ => .ok [.int 1, .int 2, .int 3]) none none 0).1 =
        .obj [("success", .bool true), ("count", .int ([JValue.int 1, .int 2, .int 3]).length),
              ("leads", .arr [.int 1, .int 2, .int 3])] ∧
      (ProjectTools.get_projects (fun _ => .error "x")
          (fun _ _ => .ok [.int 1, .int 2, .int 3]) none 0).1 =
        .obj [("success", .bool true), ("total", .int ([JValue.int 1, .int 2, .int 3]).length),
              ("count", .int ([JValue.int 1, .int 2, .int 3]).length),
              ("projects", .arr [.int 1, .int 2, .int 3])]) ∧
    ((0 : Int) < 0 → (0 : Int) < (([JValue.int 1, .int 2, .int 3]).length : Int) →
      (LeadTools.get_leads (fun _ => .error "x")
          (fun _ _ => .ok [.int 1, .int 2, .int 3]) none none 0).1 =
        .obj [("success", .bool true), ("count", .int 0),
              ("leads", .arr (([JValue.int 1, .int 2, .int 3]).take (0 : Int).toNat))] ∧
      (ProjectTools.get_projects (fun _ => .error "x")
          (fun _ _ => .ok [.int 1, .int 2, .int 3]) none 0).1 =
        .obj [("success", .bool true), ("total", .int 0), ("count", .int 0),
              ("projects", .arr (([JValue.int 1, .int 2, .int 3]).take (0 : Int).toNat))]) :=
  C3_limit_zero_full_and_positive_truncates (fun _ => .error "x")
    (fun _ _ => .ok [.int 1, .int 2, .int 3]) none none none
    [.int 1, .int 2, .int 3] 0 none (.obj [])
    rfl rfl rfl (fun _ _ => rfl)

/-- Field access on an envelope value: the entry under `k` when the
envelope is a dict. -/
def envField (v : JValue) (k : String) : Option JValue :=
  match v with
  | .obj kvs => lookupKey kvs k
  | _ => none

theorem events_count_of_payload (ev : JValue) (cnt : Int) (xs : List JValue)
    (hc : CalendarTools.events_count ev = .ok cnt) (hp : CalendarTools.events_payload ev = .ok (.arr xs)) :
    cnt = (xs.length : Int) := by
  by_cases ht : ev.truthy = true
  · rw [CalendarTools.events_count, if_pos ht] at hc
    rw [CalendarTools.events_payload, if_pos ht] at hp
    rw [hp] at hc
    simpa using hc.symm
  · rw [CalendarTools.events_count, if_neg ht] at hc
    rw [CalendarTools.events_payload, if_neg ht] at hp
    simp only [Except.ok.injEq] at hc hp
    rw [← hc]
    rw [show xs = ([] : List JValue) from by simpa using hp.symm]
    rfl

/-- C4: whenever a list operation's envelope carries a list payload, its
`count` (and, for the project listing, `total`) equals the length of that
payload list — for the lead listing, the project listing and the calendar
event listing, over every transport response shape. -/
theorem C4_count_equals_payload_length
    (J : String → Except String JValue)
    (gall : String → List (String × JValue) → Except String (List JValue))
    (tcall : String → JValue → Except String JValue)
    (fp sf pf dfrom dto secs : Option String) (limit : Int) :
    (∀ xs, envField (LeadTools.get_leads J gall fp sf limit).1 "leads" = some (.arr xs) →
      envField (LeadTools.get_leads J gall fp sf limit).1 "count" = some (.int xs.length)) ∧
    (∀ xs, envField (ProjectTools.get_projects J gall pf limit).1 "projects" =
        some (.arr xs) →
      envField (ProjectTools.get_projects J gall pf limit).1 "count" =
        some (.int xs.length) ∧
      envField (ProjectTools.get_projects J gall pf limit).1 "total" =
        some (.int xs.length)) ∧
    (∀ xs, envField (CalendarTools.get_events J tcall fp dfrom dto limit secs).1 "events" =
        some (.arr xs) →
      envField (CalendarTools.get_events J tcall fp dfrom dto limit secs).1 "count" =
        some (.int xs.length)) := by
  refine ⟨?_, ?_, ?_⟩
  · intro xs
    unfold LeadTools.get_leads
    dsimp only
    repeat' split
    all_goals intro h
    all_goals simp_all [envField, mkFail, lookupKey, List.find?]
  · intro xs
    unfold ProjectTools.get_projects
    dsimp only
    repeat' split
    all_goals intro h
    all_goals simp_all [envField, mkFail, lookupKey, List.find?]
    all_goals omega
  · intro xs
    unfold CalendarTools.get_events
    dsimp only
    repeat' split
    all_goals intro h
    all_goals simp_all [envField, mkFail, lookupKey, List.find?]
    all_goals (subst h; exact events_count_of_payload _ _ _ (by assumption) (by assumption))

/-- Witness for C4 at a stub transport: two lead records give
`count = 2`; the nested event response gives `count = 2` as well. -/
theorem C4_count_equals_payload_length_witness :
    envField (LeadTools.get_leads (fun _ => .error "x")
        (fun _ _ => .ok [.int 1, .int 2]) none none 50).1 "count" =
      some (.int ([JValue.int 1, .int 2]).length) ∧
    envField (CalendarTools.get_events (fun _ => .error "x")
        (fun _ _ => .ok (.arr [.arr [.int 4, .int 5]])) none none none 50 none).1 "count" =
      some (.int ([JValue.int 4, .int 5]).length) :=
  ⟨(C4_count_equals_payload_length (fun _ => .error "x")
      (fun _ _ => .ok [.int 1, .int 2]) (fun _ _ => .ok .null)
      none none none none none none 50).1 [.int 1, .int 2] rfl,
   (C4_count_equals_payload_length (fun _ => .error "x")
      (fun _ _ => .ok [.int 1, .int 2])
      (fun _ _ => .ok (.arr [.arr [.int 4, .int 5]]))
      none none none none none none 50).2.2 [.int 4, .int 5] rfl⟩

theorem get_events_trace
    (J : String → Except String JValue) (tcall : String → JValue → Except String JValue)
    (fp df dt : Option String) (limit : Int) (secs : Option String)
    (kvs : List (String × JValue)) (h : parseFilterObj J fp = .ok kvs) :
    (CalendarTools.get_events J tcall fp df dt limit secs).2 =
      [⟨"calendar.event.get",
        .obj (CalendarTools.add_dates (CalendarTools.merge_sections J kvs secs) df dt)⟩] := by
  unfold CalendarTools.get_events
  rw [h]
  dsimp only
  repeat' split
  all_goals rfl

theorem lookupKey_add_dates_section (fd : List (String × JValue)) (df dt : Option String) :
    lookupKey (CalendarTools.add_dates fd df dt) "section" = lookupKey fd "section" := by
  have hfrom : ∀ (g : List (String × JValue)) (s : String),
      lookupKey (setKey g "from" (.str s)) "section" = lookupKey g "section" :=
    fun g s => lookupKey_setKey_ne g "section" "from" (.str s) (by decide)
  have hto : ∀ (g : List (String × JValue)) (s : String),
      lookupKey (setKey g "to" (.str s)) "section" = lookupKey g "section" :=
    fun g s => lookupKey_setKey_ne g "section" "to" (.str s) (by decide)
  unfold CalendarTools.add_dates
  cases df <;> cases dt <;> dsimp only <;> (repeat' split) <;> simp [hfrom, hto]

theorem hasKey_add_dates_section (fd : List (String × JValue)) (df dt : Option String) :
    hasKey (CalendarTools.add_dates fd df dt) "section" = hasKey fd "section" := by
  have hfrom : ∀ (g : List (String × JValue)) (s : String),
      hasKey (setKey g "from" (.str s)) "section" = hasKey g "section" :=
    fun g s => hasKey_setKey_ne g "section" "from" (.str s) (by decide)
  have hto : ∀ (g : List (String × JValue)) (s : String),
      hasKey (setKey g "to" (.str s)) "section" = hasKey g "section" :=
    fun g s => hasKey_setKey_ne g "section" "to" (.str s) (by decide)
  unfold CalendarTools.add_dates
  cases df <;> cases dt <;> dsimp only <;> (repeat' split) <;> simp [hfrom, hto]

theorem merge_sections_of_both (J : String → Except String JValue)
    (kvs : List (String × JValue)) (v : JValue) (secs : String)
    (hlook : lookupKey kvs "section" = some v) (hsecs : secs ≠ "")
    (hne : normalize_sections J v ++ normalize_sections J (.str secs) ≠ []) :
    CalendarTools.merge_sections J kvs (some secs) =
      setKey kvs "section"
        (.arr (dedupByStr (normalize_sections J v ++ normalize_sections J (.str secs)))) := by
  have hemp : (normalize_sections J v ++ normalize_sections J (.str secs)).isEmpty = false := by
    cases hq : normalize_sections J v ++ normalize_sections J (.str secs) with
    | nil => exact absurd hq hne
    | cons a t => rfl
  unfold CalendarTools.merge_sections
  simp [hasKey_of_lookup kvs "section" v hlook, hlook, hsecs, hemp]

theorem merge_sections_dropped (J : String → Except String JValue)
    (kvs : List (String × JValue)) (v : JValue)
    (hlook : lookupKey kvs "section" = some v)
    (hnorm : normalize_sections J v = []) :
    CalendarTools.merge_sections J kvs none = popKey kvs "section" := by
  unfold CalendarTools.merge_sections
  simp [hasKey_of_lookup kvs "section" v hlook, hlook, hnorm]

/-- C6: with section values supplied both inside the filter object and
through the separate `sections` argument, the `section` entry of the
parameter dictionary sent to the transport is the concatenation —
filter values first, then the argument values — deduplicated by string
equality keeping first occurrences. -/
theorem C6_section_two_source_merge
    (J : String → Except String JValue) (tcall : String → JValue → Except String JValue)
    (s secs : String) (kvs : List (String × JValue)) (v : JValue)
    (dfrom dto : Option String) (limit : Int)
    (hs : s ≠ "") (hsecs : secs ≠ "")
    (hJ : J s = .ok (.obj kvs))
    (hlook : lookupKey kvs "section" = some v)
    (hne : normalize_sections J v ++ normalize_sections J (.str secs) ≠ []) :
    (CalendarTools.get_events J tcall (some s) dfrom dto limit (some secs)).2 =
      [⟨"calendar.event.get",
        .obj (CalendarTools.add_dates (CalendarTools.merge_sections J kvs (some secs))
          dfrom dto)⟩] ∧
    lookupKey (CalendarTools.add_dates (CalendarTools.merge_sections J kvs (some secs))
        dfrom dto) "section" =
      some (.arr (dedupByStr (normalize_sections J v ++ normalize_sections J (.str secs)))) := by
  have hp : parseFilterObj J (some s) = .ok kvs := by
    unfold parseFilterObj
    dsimp only
    rw [if_neg hs, hJ]
  refine ⟨get_events_trace J tcall (some s) dfrom dto limit (some secs) kvs hp, ?_⟩
  rw [lookupKey_add_dates_section, merge_sections_of_both J kvs v secs hlook hsecs hne]
  exact lookupKey_setKey_self _ _ _

/-- Witness for C6 at the spec's own example: filter-embedded `[21, 44]`
merged with the separately supplied string `"44,99"` yields `[21,44,99]`
in the outgoing `section` value. -/
theorem C6_section_two_source_merge_witness :
    (CalendarTools.get_events
        (fun t => if t = "f" then .ok (.obj [("section", .arr [.int 21, .int 44])])
                  else .error "Extra data: line 1 column 3 (char 2)")
        (fun _ _ => .ok (.arr [.arr []])) (some "f") none none 50 (some "44,99")).2 =
      [⟨"calendar.event.get",
        .obj (CalendarTools.add_dates
          (CalendarTools.merge_sections
            (fun t => if t = "f" then .ok (.obj [("section", .arr [.int 21, .int 44])])
                      else .error "Extra data: line 1 column 3 (char 2)")
            [("section", .arr [.int 21, .int 44])] (some "44,99")) none none)⟩] ∧
    lookupKey (CalendarTools.add_dates
        (CalendarTools.merge_sections
          (fun t => if t = "f" then .ok (.obj [("section", .arr [.int 21, .int 44])])
                    else .error "Extra data: line 1 column 3 (char 2)")
          [("section", .arr [.int 21, .int 44])] (some "44,99")) none none) "section" =
      some (.arr [.int 21, .int 44, .int 99]) := by
  have h := C6_section_two_source_merge
    (fun t => if t = "f" then .ok (.obj [("section", .arr [.int 21, .int 44])])
              else .error "Extra data: line 1 column 3 (char 2)")
    (fun _ _ => .ok (.arr [.arr []])) "f" "44,99"
    [("section", .arr [.int 21, .int 44])] (.arr [.int 21, .int 44]) none none 50
    (by decide) (by decide) rfl rfl (List.cons_ne_nil _ _)
  exact ⟨h.1, h.2.trans rfl⟩

/-- C10: a filter-supplied `section` value that normalizes to the empty
list, with no separate `sections` argument, is dropped: the parameter
dictionary sent to the transport has no `section` key. -/
theorem C10_unnormalizable_section_dropped
    (J : String → Except String JValue) (tcall : String → JValue → Except String JValue)
    (s : String) (kvs : List (String × JValue)) (v : JValue)
    (dfrom dto : Option String) (limit : Int)
    (hs : s ≠ "") (hJ : J s = .ok (.obj kvs))
    (hlook : lookupKey kvs "section" = some v)
    (hnorm : normalize_sections J v = []) :
    (CalendarTools.get_events J tcall (some s) dfrom dto limit none).2 =
      [⟨"calendar.event.get",
        .obj (CalendarTools.add_dates (CalendarTools.merge_sections J kvs none)
          dfrom dto)⟩] ∧
    hasKey (CalendarTools.add_dates (CalendarTools.merge_sections J kvs none) dfrom dto)
        "section" = false := by
  have hp : parseFilterObj J (some s) = .ok kvs := by
    unfold parseFilterObj
    dsimp only
    rw [if_neg hs, hJ]
  refine ⟨get_events_trace J tcall (some s) dfrom dto limit none kvs hp, ?_⟩
  rw [hasKey_add_dates_section, merge_sections_dropped J kvs v hlook hnorm]
  exact hasKey_popKey_self _ _

/-- Witness for C10: a `section` value that is a dict normalizes to
nothing and the key is dropped from the outgoing parameters. -/
theorem C10_unnormalizable_section_dropped_witness :
    (CalendarTools.get_events
        (fun t => if t = "f" then .ok (.obj [("section", .obj [])]) else .error "boom")
        (fun _ _ => .ok (.arr [.arr []])) (some "f") none none 50 none).2 =
      [⟨"calendar.event.get",
        .obj (CalendarTools.add_dates
          (CalendarTools.merge_sections
            (fun t => if t = "f" then .ok (.obj [("section", .obj [])]) else .error "boom")
            [("section", .obj [])] none) none none)⟩] ∧
    hasKey (CalendarTools.add_dates
        (CalendarTools.merge_sections
          (fun t => if t = "f" then .ok (.obj [("section", .obj [])]) else .error "boom")
          [("section", .obj [])] none) none none) "section" = false :=
  C10_unnormalizable_section_dropped
    (fun t => if t = "f" then .ok (.obj [("section", .obj [])]) else .error "boom")
    (fun _ _ => .ok (.arr [.arr []])) "f" [("section", .obj [])] (.obj [])
    none none 50 (by decide) rfl rfl rfl

/-- C1: every embedded tool operation is total and always returns an
envelope dict whose `success` entry is a boolean; and a caught exception
— a JSON decode error or a transport error, shown for the lead listing
and the task update — yields exactly `{"success": false, "error": msg}`
with the exception's message. -/
theorem C1_every_operation_returns_envelope
    (J : String → Except String JValue)
    (gall : String → List (String × JValue) → Except String (List JValue))
    (tcall : String → JValue → Except String JValue)
    (fp sf pf dfrom dto secs : Option String) (limit : Int)
    (task_id fields lead_id event_id status : String) :
    isEnvelopeB (LeadTools.get_leads J gall fp sf limit).1 = true ∧
    isEnvelopeB (LeadTools.get_lead tcall lead_id).1 = true ∧
    isEnvelopeB (TaskTools.update_task J tcall task_id fields).1 = true ∧
    isEnvelopeB (ProjectTools.get_projects J gall pf limit).1 = true ∧
    isEnvelopeB (CalendarTools.get_events J tcall fp dfrom dto limit secs).1 = true ∧
    isEnvelopeB (CalendarTools.get_calendar_list J tcall fp).1 = true ∧
    isEnvelopeB (CalendarTools.get_event_by_id tcall event_id).1 = true ∧
    isEnvelopeB (CalendarTools.set_meeting_status tcall event_id status).1 = true ∧
    (∀ s e, fp = some s → s ≠ "" → J s = .error e →
      (LeadTools.get_leads J gall fp sf limit).1 = mkFail e) ∧
    (∀ e, J fields = .error e →
      (TaskTools.update_task J tcall task_id fields).1 = mkFail e) ∧
    (∀ fd e, J fields = .ok fd →
      tcall "tasks.task.update" (.obj [("taskId", .str task_id), ("fields", fd)]) =
        .error e →
      (TaskTools.update_task J tcall task_id fields).1 = mkFail e) ∧
    (∀ fd e, parseOptJson J fp = .ok fd → beartypeOptDict fd = .ok () →
      gall "crm.lead.list" (BitrixClient.get_leads_params fd (splitFields sf) none 0) =
        .error e →
      (LeadTools.get_leads J gall fp sf limit).1 = mkFail e) := by
  refine ⟨?_, ?_, ?_, ?_, ?_, ?_, ?_, ?_, ?_, ?_, ?_, ?_⟩
  · unfold LeadTools.get_leads BitrixClient.get_leads
    dsimp only
    repeat' split
    all_goals rfl
  · unfold LeadTools.get_lead BitrixClient.get_lead
    dsimp only
    repeat' split
    all_goals rfl
  · unfold TaskTools.update_task
    dsimp only
    repeat' split
    all_goals rfl
  · unfold ProjectTools.get_projects
    dsimp only
    repeat' split
    all_goals rfl
  · unfold CalendarTools.get_events
    dsimp only
    repeat' split
    all_goals rfl
  · unfold CalendarTools.get_calendar_list CalendarTools.get_calendar_list_body
    dsimp only
    repeat' split
    all_goals rfl
  · unfold CalendarTools.get_event_by_id BitrixClient.get_calendar_event_by_id
    dsimp only
    repeat' split
    all_goals rfl
  · unfold CalendarTools.set_meeting_status BitrixClient.set_meeting_status
    dsimp only
    repeat' split
    all_goals rfl
  · intro s e hfp hs hJ
    subst hfp
    unfold LeadTools.get_leads parseOptJson
    dsimp only
    rw [if_neg hs, hJ]
  · intro e hJ
    unfold TaskTools.update_task
    rw [hJ]
  · intro fd e hJ htc
    unfold TaskTools.update_task
    rw [hJ]
    dsimp only
    rw [htc]
  · intro fd e hp hbt hge
    unfold LeadTools.get_leads
    rw [hp]
    dsimp only
    unfold BitrixClient.get_leads
    rw [hbt]
    dsimp only
    rw [hge]

/-- Witness for C1: a decoder that always fails gives the decode-message
failure envelope; a transport that always fails gives the
transport-message failure envelope; both results are envelopes. -/
theorem C1_every_operation_returns_envelope_witness :
    isEnvelopeB (LeadTools.get_leads (fun _ => .error "boom") (fun _ _ => .ok [])
        (some "x") none 50).1 = true ∧
    isEnvelopeB (TaskTools.update_task (fun _ => .error "boom") (fun _ _ => .ok .null)
        "1" "f").1 = true ∧
    (LeadTools.get_leads (fun _ => .error "boom") (fun _ _ => .ok [])
        (some "x") none 50).1 = mkFail "boom" ∧
    (TaskTools.update_task (fun _ => .error "boom") (fun _ _ => .ok .null) "1" "f").1 =
      mkFail "boom" ∧
    (TaskTools.update_task (fun _ => .ok (.obj [])) (fun _ _ => .error "net down")
        "1" "f").1 = mkFail "net down" ∧
    (LeadTools.get_leads (fun _ => .ok (.obj [])) (fun _ _ => .error "net down")
        (some "x") none 50).1 = mkFail "net down" := by
  have h1 := C1_every_operation_returns_envelope (fun _ => .error "boom")
    (fun _ _ => .ok []) (fun _ _ => .ok .null) (some "x") none none none none none 50
    "1" "f" "7" "9" "Y"
  have h2 := C1_every_operation_returns_envelope (fun _ => .ok (.obj []))
    (fun _ _ => .error "net down") (fun _ _ => .error "net down")
    (some "x") none none none none none 50 "1" "f" "7" "9" "Y"
  refine ⟨h1.1, h1.2.2.1, ?_, ?_, ?_, ?_⟩
  · exact h1.2.2.2.2.2.2.2.2.1 "x" "boom" rfl (by decide) rfl
  · exact h1.2.2.2.2.2.2.2.2.2.1 "boom" rfl
  · exact h2.2.2.2.2.2.2.2.2.2.2.1 (.obj []) "net down" rfl rfl
  · exact h2.2.2.2.2.2.2.2.2.2.2.2 (some (.obj [])) "net down" rfl rfl rfl
